import Mathlib

/-!
Shallow embedding of the fast-jwt signer (`src/signer.js`) and proofs about it.

JavaScript values that can flow through the signer are modelled by `JsValue`;
JS strings are Lean `String`s, JS numbers are exact fractions (`JsNumber`:
every finite double is a rational; `NaN` is represented by `Option.none` at
the coercion layer), byte buffers are lists of byte values.  Stateful aspects (the `Date.now()` clock,
the in-place payload mutation of `mutatePayload`, the awaited secret callback
of the async signer) are passed around explicitly.  Code of the repository
that is imported by `signer.js` but lives outside it (`src/crypto.js`,
`src/utils.js`) is modelled from the specification and marked as such in the
corresponding doc comments.
-/

namespace FastJwt

/-- A JavaScript number, as an exact fraction (numerator over a positive
denominator; values built in this development always have a positive
denominator, and no operation of the signer normalizes them).  JS `NaN`
never inhabits this type: coercions that can produce `NaN` return an
`Option JsNumber` whose `none` is `NaN`. -/
structure JsNumber where
  num : ℤ
  den : ℕ := 1
  deriving DecidableEq

/-- The integer `n` as a JS number. -/
def JsNumber.ofInt (n : ℤ) : JsNumber := ⟨n, 1⟩

/-- Multiplication by the literal `1000`, as in `payload.iat * 1000`. -/
def JsNumber.scale1000 (q : JsNumber) : JsNumber := ⟨q.num * 1000, q.den⟩

/-- Addition of two JS numbers. -/
def JsNumber.addNum (a b : JsNumber) : JsNumber :=
  ⟨a.num * b.den + b.num * a.den, a.den * b.den⟩

/-- `Math.floor(q / 1000)`, the only division the signer performs; rounds
toward negative infinity, as `Math.floor` does. -/
def JsNumber.floorDiv1000 (q : JsNumber) : ℤ := Int.fdiv q.num (q.den * 1000)

/-- A JavaScript runtime value, as far as the signer can observe it.  Objects
are insertion-ordered association lists (JS objects preserve string-key
insertion order); `vBuf` is a Node `Buffer` holding byte values; `vFunc` is an
opaque function value (only its `typeof` matters to the signer). -/
inductive JsValue where
  | vUndefined
  | vNull
  | vBool (b : Bool)
  | vNum (q : JsNumber)
  | vStr (s : String)
  | vObj (fields : List (String × JsValue))
  | vArr (elems : List JsValue)
  | vBuf (bytes : List Nat)
  | vFunc (id : Nat)

/-- The JS `typeof` operator on the modelled values. -/
def jsTypeof : JsValue → String
  | .vUndefined => "undefined"
  | .vNull => "object"
  | .vBool _ => "boolean"
  | .vNum _ => "number"
  | .vStr _ => "string"
  | .vObj _ => "object"
  | .vArr _ => "object"
  | .vBuf _ => "object"
  | .vFunc _ => "function"

/-- JS truthiness.  `vNum` cannot hold `NaN` (which is falsy); `NaN` only
arises from coercions, where it is `Option.none` and handled at use sites. -/
def jsTruthy : JsValue → Bool
  | .vUndefined => false
  | .vNull => false
  | .vBool b => b
  | .vNum q => decide (q.num ≠ 0)
  | .vStr s => decide (s ≠ "")
  | _ => true

/-- JS `ToNumber` on strings, for the simple decimal forms that can occur
here: the empty string is `0`, digit strings parse, anything else is `NaN`
(`none`). -/
def strToNumber (s : String) : Option JsNumber :=
  if s = "" then some (JsNumber.ofInt 0)
  else if s.data.all (fun c => c.isDigit) then
    some (JsNumber.ofInt ((s.data.foldl (fun n c => n * 10 + (c.toNat - 48)) (0 : Nat) : Nat) : ℤ))
  else none

/-- JS `ToNumber` coercion; `none` is `NaN`.  Plain objects, buffers and
functions coerce to `NaN`. -/
def toNumber : JsValue → Option JsNumber
  | .vUndefined => none
  | .vNull => some (JsNumber.ofInt 0)
  | .vBool b => some (JsNumber.ofInt (if b then 1 else 0))
  | .vNum q => some q
  | .vStr s => strToNumber s
  | _ => none

/-- First-match lookup of a key in a JS object's field list. -/
def objGet : List (String × JsValue) → String → Option JsValue
  | [], _ => none
  | (k, v) :: rest, key => if k = key then some v else objGet rest key

/-- JS property assignment on an object's field list: an existing key is
updated in place (keeping its position), a new key is appended. -/
def objSet : List (String × JsValue) → String → JsValue → List (String × JsValue)
  | [], key, v => [(key, v)]
  | (k, w) :: rest, key, v =>
    if k = key then (k, v) :: rest else (k, w) :: objSet rest key v

/-- Copy the entries of `over` into `base` left to right, as both object
spread `\x7b...base, ...over\x7d` and `Object.assign(base, over)` do. -/
def objSpreadList (base over : List (String × JsValue)) : List (String × JsValue) :=
  over.foldl (fun acc kv => objSet acc kv.1 kv.2) base

/-- Spreading an arbitrary value into an object literal whose fields so far
are `baseFields`.  Spreading `undefined` or `null` adds nothing; only the
object case matters for the signer (the `header` option is validated to be
object-typed or falsy before it is ever spread). -/
def spreadVal (base : JsValue) (v : JsValue) : JsValue :=
  match base, v with
  | .vObj fs, .vObj gs => .vObj (objSpreadList fs gs)
  | _, _ => base

/-- Position of JS property reads in the error model: the token-error codes
used by the signer. -/
inductive TokenErrorCode where
  | invalidType
  | invalidOption
  | secretFetchingError
  deriving DecidableEq

/-- An error escaping a signer call: either a tagged `TokenError` of the
repository or an untagged runtime `TypeError` of the JS engine. -/
inductive JsError where
  | tokenError (code : TokenErrorCode) (msg : String)
  | typeError (msg : String)
  deriving DecidableEq

/-- The `TokenError` code of a failed computation, if it failed with a tagged
error. -/
def errCode {α : Type} : Except JsError α → Option TokenErrorCode
  | .error (.tokenError c _) => some c
  | _ => none

/-- JS property read `v[key]`: throws a `TypeError` on `null`/`undefined`,
yields `undefined` for missing keys and for non-object receivers. -/
def getProp (v : JsValue) (key : String) : Except JsError JsValue :=
  match v with
  | .vNull => .error (.typeError ("Cannot read properties of null (reading " ++ key ++ ")"))
  | .vUndefined => .error (.typeError ("Cannot read properties of undefined (reading " ++ key ++ ")"))
  | .vObj fs => .ok ((objGet fs key).getD .vUndefined)
  | _ => .ok .vUndefined

/-- Hexadecimal digit, for JSON control-character escapes. -/
def hexDigit (n : Nat) : Char :=
  "0123456789abcdef".data.getD n '0'

/-- JSON escaping of a single character, as `JSON.stringify` performs it. -/
def jsonEscapeChar (c : Char) : List Char :=
  if c = '"' then ['\\', '"']
  else if c = '\\' then ['\\', '\\']
  else if c = Char.ofNat 8 then ['\\', 'b']
  else if c = Char.ofNat 9 then ['\\', 't']
  else if c = Char.ofNat 10 then ['\\', 'n']
  else if c = Char.ofNat 12 then ['\\', 'f']
  else if c = Char.ofNat 13 then ['\\', 'r']
  else if c.toNat < 32 then
    ['\\', 'u', '0', '0', hexDigit (c.toNat / 16), hexDigit (c.toNat % 16)]
  else [c]

/-- JSON string literal for `s`. -/
def jsonQuote (s : String) : String :=
  ⟨'"' :: s.data.foldr (fun c acc => jsonEscapeChar c ++ acc) ['"']⟩

/-- JS number-to-string conversion for the values arising here: integral
values print as plain integers (as in JS); non-integral values are printed
as a fraction, standing in for the JS shortest-round-trip decimal form,
which no value in this development exercises. -/
def jsNumToString (q : JsNumber) : String :=
  let g := Nat.gcd q.num.natAbs q.den
  let n := q.num / (g : ℤ)
  let d := q.den / g
  if d = 1 then toString n
  else toString n ++ "/" ++ toString d

mutual

/-- The JSON serializer (`JSON.stringify`): `undefined` and functions are
not serializable (`none`); inside objects such fields are dropped, inside
arrays they become `null`. -/
def jsonStringify : JsValue → Option String
  | .vUndefined => none
  | .vFunc _ => none
  | .vNull => some "null"
  | .vBool b => some (if b then "true" else "false")
  | .vNum q => some (jsNumToString q)
  | .vStr s => some (jsonQuote s)
  | .vBuf bs =>
    some ("\x7b\"type\":\"Buffer\",\"data\":[" ++
      String.intercalate "," (bs.map (fun b => toString b)) ++ "]\x7d")
  | .vObj fs => some ("\x7b" ++ String.intercalate "," (jsonFieldParts fs) ++ "\x7d")
  | .vArr vs => some ("[" ++ String.intercalate "," (jsonArrParts vs) ++ "]")

/-- Serialized `"key":value` parts of an object, skipping non-serializable
values exactly as `JSON.stringify` does. -/
def jsonFieldParts : List (String × JsValue) → List String
  | [] => []
  | (k, v) :: rest =>
    match jsonStringify v with
    | none => jsonFieldParts rest
    | some sv => (jsonQuote k ++ ":" ++ sv) :: jsonFieldParts rest

/-- Serialized elements of an array (`undefined`/functions become `null`). -/
def jsonArrParts : List JsValue → List String
  | [] => []
  | v :: rest => ((jsonStringify v).getD "null") :: jsonArrParts rest

end

/-- Total version of `JSON.stringify`, for positions where the value is
known to be serializable (an object always is). -/
def jsonStringifyD (v : JsValue) : String :=
  (jsonStringify v).getD "undefined"

/-- The fields of an object that survive `JSON.stringify` (those whose
values are serializable). -/
def serializableFields (fs : List (String × JsValue)) : List (String × JsValue) :=
  fs.filter (fun kv => (jsonStringify kv.2).isSome)

/-- UTF-8 encoding of one character. -/
def charUtf8Bytes (c : Char) : List Nat :=
  let n := c.toNat
  if n < 128 then [n]
  else if n < 2048 then [192 + n / 64, 128 + n % 64]
  else if n < 65536 then [224 + n / 4096, 128 + n / 64 % 64, 128 + n % 64]
  else [240 + n / 262144, 128 + n / 4096 % 64, 128 + n / 64 % 64, 128 + n % 64]

/-- UTF-8 bytes of a string, as `Buffer.from(s)` yields them. -/
def utf8Bytes (s : String) : List Nat :=
  s.data.foldr (fun c acc => charUtf8Bytes c ++ acc) []

/-- Whether a byte is a UTF-8 continuation byte. -/
def isUtf8Cont (b : Nat) : Bool := 128 ≤ b && b < 192

/-- The Unicode replacement character, used for undecodable bytes. -/
def replacementChar : Char := Char.ofNat 65533

/-- Fuelled UTF-8 decoder (the fuel is the length of the byte list, so it
never runs out); malformed bytes decode to the replacement character. -/
def utf8DecodeFuel : Nat → List Nat → List Char
  | 0, _ => []
  | _ + 1, [] => []
  | fuel + 1, b1 :: rest =>
    if b1 < 128 then Char.ofNat b1 :: utf8DecodeFuel fuel rest
    else if b1 < 192 then replacementChar :: utf8DecodeFuel fuel rest
    else if b1 < 224 then
      match rest with
      | b2 :: rest2 =>
        if isUtf8Cont b2 then
          Char.ofNat ((b1 - 192) * 64 + (b2 - 128)) :: utf8DecodeFuel fuel rest2
        else replacementChar :: utf8DecodeFuel fuel rest
      | [] => [replacementChar]
    else if b1 < 240 then
      match rest with
      | b2 :: b3 :: rest3 =>
        if isUtf8Cont b2 && isUtf8Cont b3 then
          Char.ofNat ((b1 - 224) * 4096 + (b2 - 128) * 64 + (b3 - 128)) :: utf8DecodeFuel fuel rest3
        else replacementChar :: utf8DecodeFuel fuel rest
      | _ => replacementChar :: utf8DecodeFuel fuel rest
    else
      match rest with
      | b2 :: b3 :: b4 :: rest4 =>
        if isUtf8Cont b2 && isUtf8Cont b3 && isUtf8Cont b4 then
          Char.ofNat ((b1 - 240) * 262144 + (b2 - 128) * 4096 + (b3 - 128) * 64 + (b4 - 128)) ::
            utf8DecodeFuel fuel rest4
        else replacementChar :: utf8DecodeFuel fuel rest
      | _ => replacementChar :: utf8DecodeFuel fuel rest

/-- Node `buffer.toString(encoding)`.  The signer is exercised with the
default `utf8` encoding; the validated `encoding` option is accepted but the
model decodes as UTF-8. -/
def bufferToString (encoding : JsValue) (bs : List Nat) : String :=
  let _ := encoding
  ⟨utf8DecodeFuel bs.length bs⟩

/-- The standard base64 alphabet. -/
def base64Chars : List Char :=
  "ABCDEFGHIJKLMNOPQRSTUVWXYZabcdefghijklmnopqrstuvwxyz0123456789+/".data

/-- Character of the base64 alphabet at a 6-bit index. -/
def b64Char (n : Nat) : Char := base64Chars.getD n 'A'

/-- Standard (padded) base64 of a byte list, as Node
`Buffer.prototype.toString` with argument `base64` produces it. -/
def base64EncodeList : List Nat → List Char
  | [] => []
  | [b1] => [b64Char (b1 / 4 % 64), b64Char (b1 % 4 * 16), '=', '=']
  | [b1, b2] => [b64Char (b1 / 4 % 64), b64Char (b1 % 4 * 16 + b2 / 16), b64Char (b2 % 16 * 4), '=']
  | b1 :: b2 :: b3 :: rest =>
    b64Char (b1 / 4 % 64) :: b64Char (b1 % 4 * 16 + b2 / 16) ::
      b64Char (b2 % 16 * 4 + b3 / 64) :: b64Char (b3 % 64) :: base64EncodeList rest

/-- Standard (padded) base64 of a byte list, as a string. -/
def base64Encode (bs : List Nat) : String := ⟨base64EncodeList bs⟩

/-- URL-safe substitution on one base64 character. -/
def b64UrlChar (c : Char) : Char :=
  if c = '+' then '-' else if c = '/' then '_' else c

/-- Modelled from the spec: `base64UrlEncode` lives in `src/utils.js`, which
is not part of the sources; the spec fixes it as the URL-safe unpadded form
of a base64 text (strip `=` padding, substitute `+` with `-` and `/` with
`_`). -/
def base64UrlEncode (s : String) : String :=
  ⟨(s.data.filter (fun c => c ≠ '=')).map b64UrlChar⟩

/-- JS `String.prototype.split` with separator `.` on a character list. -/
def splitDotList : List Char → List (List Char)
  | [] => [[]]
  | c :: rest =>
    if c = '.' then [] :: splitDotList rest
    else
      match splitDotList rest with
      | [] => [[c]]
      | s :: ss => (c :: s) :: ss

/-- JS `token.split(".")`. -/
def splitSegments (s : String) : List String :=
  (splitDotList s.data).map (fun l => ⟨l⟩)

/-- Modelled from the spec: the elliptic-curve algorithm identifiers of
`src/crypto.js` (absent from the sources); the spec fixes an elliptic-curve
family with three hash widths. -/
def publicKeyAlgorithms : List String := ["ES256", "ES384", "ES512"]

/-- Modelled from the spec: the RSA and RSA-PSS algorithm identifiers of
`src/crypto.js` (absent from the sources); the spec fixes an RSA family and
an RSA-PSS family with three hash widths each. -/
def rsaKeyAlgorithms : List String := ["RS256", "RS384", "RS512", "PS256", "PS384", "PS512"]

/-- Modelled from the spec: the symmetric-hash algorithm identifiers of
`src/crypto.js` (absent from the sources); the spec fixes a symmetric-hash
family with three hash widths. -/
def hashAlgorithms : List String := ["HS256", "HS384", "HS512"]

/-- The closed set of accepted algorithm identifiers:
`publicKeyAlgorithms`, `rsaKeyAlgorithms`, `hashAlgorithms` and the literal
`none`, as the validation in `createSigner` accepts them. -/
def supportedAlgorithmsList : List String :=
  publicKeyAlgorithms ++ rsaKeyAlgorithms ++ hashAlgorithms ++ ["none"]

/-- The algorithm check of `createSigner`: the option passes when it is the
string `none` or a member of one of the three algorithm lists (a non-string
value is never a member, as in JS `includes`). -/
def algSupported (a : JsValue) : Bool :=
  match a with
  | .vStr s => supportedAlgorithmsList.contains s
  | _ => false

/-- The hash width named by an algorithm identifier (`HS256` has width 256,
and so on). -/
def algWidth (s : String) : Nat :=
  if "256".data.isSuffixOf s.data then 256
  else if "384".data.isSuffixOf s.data then 384
  else if "512".data.isSuffixOf s.data then 512
  else 0

/-- The options object accepted by `createSigner`; `none` is an absent key
(the destructuring in the source then yields `undefined`, except for
`algorithm`, which defaults to `HS256`). -/
structure SignerOptions where
  secret : Option JsValue := none
  algorithm : Option JsValue := none
  encoding : Option JsValue := none
  noTimestamp : Option JsValue := none
  mutatePayload : Option JsValue := none
  useWorkerThreads : Option JsValue := none
  expiresIn : Option JsValue := none
  notBefore : Option JsValue := none
  jti : Option JsValue := none
  aud : Option JsValue := none
  iss : Option JsValue := none
  sub : Option JsValue := none
  nonce : Option JsValue := none
  kid : Option JsValue := none
  header : Option JsValue := none

/-- The sync-or-async decision of `createSigner` (line 174 of the source):
the returned signer is synchronous exactly when the secret is not a callback
and worker threads are not requested or not supported. -/
def signerIsSync (secret useWorkerThreads : JsValue) (supportsWorkerThreads : Bool) : Bool :=
  (jsTypeof secret != "function") && (!(jsTruthy useWorkerThreads) || !supportsWorkerThreads)

/-- The string content of a validated algorithm option (always a `vStr` once
validation has passed). -/
def algString (a : JsValue) : String :=
  match a with
  | .vStr s => s
  | _ => ""

/-- The validated configuration captured by the closure `createSigner`
returns: the destructured options, the prepared `fixedPayload`, and which of
the two `signJwt` functions was returned (`isSync`). -/
structure SignerCfg where
  algorithm : String
  secret : JsValue
  encoding : JsValue
  noTimestamp : JsValue
  mutatePayload : JsValue
  useWorkerThreads : JsValue
  expiresIn : JsValue
  notBefore : JsValue
  kid : JsValue
  header : JsValue
  fixedPayload : List (String × JsValue)
  isSync : Bool

/-- Whether a coerced option value is a negative number (`NaN` comparisons
are false in JS, hence `none` maps to `false`). -/
def numNegative (v : JsValue) : Bool :=
  match toNumber v with
  | some q => decide (q.num < 0)
  | none => false

/-- The validation chain of `createSigner` (lines 100-162 of the source), in
source order: the first failing check determines the thrown `InvalidOption`
TokenError; `none` means every check passed. -/
def signerValidationError (secret algorithm encoding expiresIn notBefore jti aud iss sub
    nonce kid additionalHeader : JsValue) : Option JsError :=
  if !(algSupported algorithm) then
    some (.tokenError .invalidOption
      ("The algorithm option must be one of the following values: " ++
        String.intercalate ", " supportedAlgorithmsList ++ "."))
  else if !(jsTruthy secret) ||
      (jsTypeof secret != "string" && jsTypeof secret != "object" && jsTypeof secret != "function") then
    some (.tokenError .invalidOption
      "The secret option must be a string, buffer, object or callback containing a secret or a private key.")
  else if jsTruthy encoding && jsTypeof encoding != "string" then
    some (.tokenError .invalidOption "The encoding option must be a string.")
  else if jsTruthy expiresIn && (jsTypeof expiresIn != "number" || numNegative expiresIn) then
    some (.tokenError .invalidOption "The expiresIn option must be a positive number.")
  else if jsTruthy notBefore && (jsTypeof notBefore != "number" || numNegative notBefore) then
    some (.tokenError .invalidOption "The notBefore option must be a positive number.")
  else if jsTruthy jti && jsTypeof jti != "string" then
    some (.tokenError .invalidOption "The jti option must be a string.")
  else if jsTruthy aud && jsTypeof aud != "string" &&
      !(match aud with | .vArr _ => true | _ => false) then
    some (.tokenError .invalidOption "The aud option must be a string or an array of strings.")
  else if jsTruthy iss && jsTypeof iss != "string" then
    some (.tokenError .invalidOption "The iss option must be a string.")
  else if jsTruthy sub && jsTypeof sub != "string" then
    some (.tokenError .invalidOption "The sub option must be a string.")
  else if jsTruthy nonce && jsTypeof nonce != "string" then
    some (.tokenError .invalidOption "The nonce option must be a string.")
  else if jsTruthy kid && jsTypeof kid != "string" then
    some (.tokenError .invalidOption "The kid option must be a string.")
  else if jsTruthy additionalHeader && jsTypeof additionalHeader != "object" then
    some (.tokenError .invalidOption "The header option must be a object.")
  else none

/-- The body of `createSigner` of `src/signer.js` after the option
destructuring: run the validation chain (throwing its first failure), then
build the signer configuration with the prepared `fixedPayload`.  Whether
the host supports worker threads (`supportsWorkerThreads` of
`src/crypto.js`, absent from the sources) is an explicit parameter. -/
def createSignerChecked (secret algorithm encoding noTimestamp mutatePayload
    useWorkerThreads expiresIn notBefore jti aud iss sub nonce kid additionalHeader : JsValue)
    (supportsWorkerThreads : Bool) : Except JsError SignerCfg :=
  match signerValidationError secret algorithm encoding expiresIn notBefore jti aud iss sub
      nonce kid additionalHeader with
  | some e => .error e
  | none =>
    .ok
      { algorithm := algString algorithm
        secret := secret
        encoding := encoding
        noTimestamp := noTimestamp
        mutatePayload := mutatePayload
        useWorkerThreads := useWorkerThreads
        expiresIn := expiresIn
        notBefore := notBefore
        kid := kid
        header := additionalHeader
        fixedPayload := [("jti", jti), ("aud", aud), ("iss", iss), ("sub", sub), ("nonce", nonce)]
        isSync := signerIsSync secret useWorkerThreads supportsWorkerThreads }

/-- `createSigner` proper: destructure the options with their defaults
(`{ algorithm: 'HS256', ...options }`) and run the validation chain. -/
def createSigner (options : SignerOptions) (supportsWorkerThreads : Bool) :
    Except JsError SignerCfg :=
  createSignerChecked
    (options.secret.getD .vUndefined)
    (options.algorithm.getD (.vStr "HS256"))
    (options.encoding.getD .vUndefined)
    (options.noTimestamp.getD .vUndefined)
    (options.mutatePayload.getD .vUndefined)
    (options.useWorkerThreads.getD .vUndefined)
    (options.expiresIn.getD .vUndefined)
    (options.notBefore.getD .vUndefined)
    (options.jti.getD .vUndefined)
    (options.aud.getD .vUndefined)
    (options.iss.getD .vUndefined)
    (options.sub.getD .vUndefined)
    (options.nonce.getD .vUndefined)
    (options.kid.getD .vUndefined)
    (options.header.getD .vUndefined)
    supportsWorkerThreads

/-- The buffer-to-text conversion both `encodeHeader` (lines 16-18) and
`encodePayload` (lines 26-28) perform: a `Buffer` payload becomes its
decoded text, every other payload is left alone. -/
def payloadToText (payload encoding : JsValue) : JsValue :=
  match payload with
  | .vBuf bs => .vStr (bufferToString encoding bs)
  | _ => payload

/-- The header object of `encodeHeader` (line 20): the fields `alg`, `typ`
and `kid`, with `additionalHeader` spread over them last; `typ` is set to
`JWT` exactly when the (buffer-converted) payload is object-typed. -/
def headerObject (alg : String) (kid additionalHeader payload1 : JsValue) : JsValue :=
  spreadVal
    (.vObj [("alg", .vStr alg),
            ("typ", if jsTypeof payload1 == "object" then JsValue.vStr "JWT" else .vUndefined),
            ("kid", kid)])
    additionalHeader

/-- `encodeHeader` of `src/signer.js` (lines 13-22): reject payloads whose
`typeof` is neither `string` nor `object` with an `InvalidType` TokenError,
convert buffer payloads to text, build the header object, and return its
JSON in standard base64 (the source applies no URL-safe conversion to this
segment), along with the header object itself. -/
def encodeHeader (alg : String) (kid : JsValue) (additionalHeader : JsValue)
    (payload : JsValue) (encoding : JsValue) : Except JsError (String × JsValue) :=
  if jsTypeof payload != "string" && jsTypeof payload != "object" then
    .error (.tokenError .invalidType "The payload must be a object, a string or a buffer.")
  else
    let header := headerObject alg kid additionalHeader (payloadToText payload encoding)
    .ok (base64Encode (utf8Bytes (jsonStringifyD header)), header)

/-- The `iat` baseline of `encodePayload` (line 34 of the source):
`payload.iat * 1000 || Date.now()` — the scaled `iat` of the payload when
that product is a truthy number (nonzero, not `NaN`), the clock
otherwise. -/
def iatBaselineMs (now : ℤ) (iatProp : JsValue) : JsNumber :=
  match toNumber iatProp with
  | some q => if q.scale1000.num = 0 then .ofInt now else q.scale1000
  | none => .ofInt now

/-- The `additionalPayload` object of `encodePayload` (lines 35-47): `iat`
unless suppressed, `exp` when `expiresIn` is truthy, `nbf` when `notBefore`
is truthy, each floored to whole seconds.  `expiresIn`/`notBefore` are
numbers whenever truthy (validated in `createSigner`), so the `getD`
fallback is never taken on real runs. -/
def additionalClaims (iatMs : JsNumber) (noTimestamp expiresIn notBefore : JsValue) :
    List (String × JsValue) :=
  (if jsTruthy noTimestamp then []
   else [("iat", JsValue.vNum (.ofInt iatMs.floorDiv1000))])
  ++ (if jsTruthy expiresIn then
        [("exp", JsValue.vNum (.ofInt ((iatMs.addNum ((toNumber expiresIn).getD (.ofInt 0))).floorDiv1000)))]
      else [])
  ++ (if jsTruthy notBefore then
        [("nbf", JsValue.vNum (.ofInt ((iatMs.addNum ((toNumber notBefore).getD (.ofInt 0))).floorDiv1000)))]
      else [])

/-- The own enumerable fields a structured payload contributes to an object
spread: an object spreads its fields, an array its indexed elements, and a
primitive nothing. -/
def structuredBase : JsValue → List (String × JsValue)
  | .vObj fs => fs
  | .vArr vs => vs.enum.map (fun p => (toString p.1, p.2))
  | _ => []

/-- The merge of `encodePayload` (lines 49-56), spelled with the helpers
above: read `payload.iat` (which throws on `null`), then merge the payload
fields, the fixed claims and the temporal claims in that order. -/
def mergedPayloadFields (now : ℤ) (payload : JsValue)
    (fixedPayload : List (String × JsValue)) (noTimestamp expiresIn notBefore : JsValue) :
    Except JsError (List (String × JsValue)) := do
  let iatProp ← getProp payload "iat"
  .ok (objSpreadList (objSpreadList (structuredBase payload) fixedPayload)
    (additionalClaims (iatBaselineMs now iatProp) noTimestamp expiresIn notBefore))

/-- `encodePayload` of `src/signer.js` (lines 24-59): buffer payloads are
decoded to text; a text payload is base64url-encoded directly with no claim
merging; an object payload is merged with the fixed and temporal claims and
its JSON is base64url-encoded.  The second component is the value the
caller's payload binding holds afterwards: the merged object when
`mutatePayload` is truthy (`Object.assign` writes into the caller's
object), the untouched original otherwise (object spread builds a fresh
object). -/
def encodePayload (now : ℤ) (payload : JsValue) (encoding : JsValue)
    (fixedPayload : List (String × JsValue))
    (noTimestamp expiresIn notBefore mutatePayload : JsValue) :
    Except JsError (String × JsValue) :=
  match payloadToText payload encoding with
  | .vStr s => .ok (base64UrlEncode (base64Encode (utf8Bytes s)), payload)
  | _ => do
    let merged ← mergedPayloadFields now (payloadToText payload encoding) fixedPayload
      noTimestamp expiresIn notBefore
    let post := if jsTruthy mutatePayload then JsValue.vObj merged else payload
    .ok (base64UrlEncode (base64Encode (utf8Bytes (jsonStringifyD (.vObj merged)))), post)

/-- Modelled from the spec: `createSignature` lives in `src/crypto.js`,
which is not part of the sources.  The spec fixes only the `none` family
(its signature is empty); every other family delegates to the host's
cryptographic primitives, abstracted here as the `core` parameter yielding
the raw signature bytes. -/
def createSignature (core : String → JsValue → String → String → List Nat)
    (alg : String) (secret : JsValue) (encodedHeader encodedPayload : String) : List Nat :=
  if alg = "none" then [] else core alg secret encodedHeader encodedPayload

/-- The synchronous `signJwt` closure (lines 175-191): encode the header,
encode the payload, sign, and join the three segments with dots. -/
def signJwtSync (core : String → JsValue → String → String → List Nat)
    (cfg : SignerCfg) (payload : JsValue) (now : ℤ) : Except JsError String := do
  let (encodedHeader, _) ← encodeHeader cfg.algorithm cfg.kid cfg.header payload cfg.encoding
  let (encodedPayload, _) ← encodePayload now payload cfg.encoding cfg.fixedPayload
    cfg.noTimestamp cfg.expiresIn cfg.notBefore cfg.mutatePayload
  let encodedSignature := base64UrlEncode
    (base64Encode (createSignature core cfg.algorithm cfg.secret encodedHeader encodedPayload))
  .ok (encodedHeader ++ "." ++ encodedPayload ++ "." ++ encodedSignature)

/-- The asynchronous `signJwt` closure (lines 194-237), with the awaited
result of `getAsyncSecret` (from `src/utils.js`, absent from the sources)
passed in as `fetched`.  The header is encoded before the secret is
resolved; a failed fetch is wrapped in a `SecretFetchingError` TokenError.
The returned `Except` is the settled state of the deferred result (a
completion callback, when supplied, receives exactly this outcome). -/
def signJwtAsync (core : String → JsValue → String → String → List Nat)
    (fetched : Except String JsValue) (cfg : SignerCfg) (payload : JsValue) (now : ℤ) :
    Except JsError String := do
  let (encodedHeader, _) ← encodeHeader cfg.algorithm cfg.kid cfg.header payload cfg.encoding
  let currentSecret ←
    if jsTypeof cfg.secret == "function" then
      match fetched with
      | .ok s => pure s
      | .error _ => .error (.tokenError .secretFetchingError "Cannot fetch secret.")
    else pure cfg.secret
  let (encodedPayload, _) ← encodePayload now payload cfg.encoding cfg.fixedPayload
    cfg.noTimestamp cfg.expiresIn cfg.notBefore cfg.mutatePayload
  let encodedSignature := base64UrlEncode
    (base64Encode (createSignature core cfg.algorithm currentSecret encodedHeader encodedPayload))
  .ok (encodedHeader ++ "." ++ encodedPayload ++ "." ++ encodedSignature)

/-- The decoded text of a raw (string or buffer) payload; `none` for
structured payloads. -/
def payloadText (encoding : JsValue) : JsValue → Option String
  | .vStr s => some s
  | .vBuf bs => some (bufferToString encoding bs)
  | _ => none

/-- A trivial stand-in for the host signing primitive: every signature is
empty.  Used to instantiate the abstract `core` parameter at concrete
inputs whose conclusions do not depend on signature bytes. -/
def coreNull : String → JsValue → String → String → List Nat := fun _ _ _ _ => []

/-- A stand-in host signing primitive with a nonempty output, used where a
concrete input should show the signature bytes being ignored. -/
def coreMark : String → JsValue → String → String → List Nat := fun _ _ _ _ => [1, 2, 3]

/-- What the temporal claims of a merged payload look like for a given
baseline `bms` (in milliseconds): `iat` is the floored seconds of the
baseline unless suppressed, `exp`/`nbf` are the floored seconds of the
baseline plus the configured span. -/
def emittedTemporalClaims (bms : JsNumber) (m : List (String × JsValue))
    (noTimestamp expiresIn notBefore : JsValue) : Prop :=
  (jsTruthy noTimestamp = false →
    objGet m "iat" = some (.vNum (.ofInt bms.floorDiv1000)))
  ∧ (∀ e : JsNumber, expiresIn = .vNum e → e.num ≠ 0 →
      objGet m "exp" = some (.vNum (.ofInt ((bms.addNum e).floorDiv1000))))
  ∧ (∀ n : JsNumber, notBefore = .vNum n → n.num ≠ 0 →
      objGet m "nbf" = some (.vNum (.ofInt ((bms.addNum n).floorDiv1000))))

/-- The configuration record a successful `createSigner` call produces, as a
function of the options. -/
def signerCfgOf (opts : SignerOptions) (swt : Bool) : SignerCfg :=
  { algorithm := algString (opts.algorithm.getD (.vStr "HS256"))
    secret := opts.secret.getD .vUndefined
    encoding := opts.encoding.getD .vUndefined
    noTimestamp := opts.noTimestamp.getD .vUndefined
    mutatePayload := opts.mutatePayload.getD .vUndefined
    useWorkerThreads := opts.useWorkerThreads.getD .vUndefined
    expiresIn := opts.expiresIn.getD .vUndefined
    notBefore := opts.notBefore.getD .vUndefined
    kid := opts.kid.getD .vUndefined
    header := opts.header.getD .vUndefined
    fixedPayload := [("jti", opts.jti.getD .vUndefined), ("aud", opts.aud.getD .vUndefined),
      ("iss", opts.iss.getD .vUndefined), ("sub", opts.sub.getD .vUndefined),
      ("nonce", opts.nonce.getD .vUndefined)]
    isSync := signerIsSync (opts.secret.getD .vUndefined) (opts.useWorkerThreads.getD .vUndefined) swt }

/-- The merged field list `encodePayload` serializes for an object payload. -/
def mergedObjFields (now : ℤ) (fs fixed : List (String × JsValue)) (nt ei nb : JsValue) :
    List (String × JsValue) :=
  objSpreadList (objSpreadList fs fixed)
    (additionalClaims (iatBaselineMs now ((objGet fs "iat").getD .vUndefined)) nt ei nb)

/-! Concrete signer options used at the claims concrete inputs. -/

/-- A signer over a static string secret, everything else defaulted. -/
def optsStatic : SignerOptions := { secret := some (.vStr "k") }

/-- A signer with algorithm `none` and the timestamp suppressed. -/
def optsNoneAlg : SignerOptions :=
  { secret := some (.vStr "secretsecretsecret"), algorithm := some (.vStr "none"),
    noTimestamp := some (.vBool true) }

/-- A signer without a `jti` option (timestamp suppressed to isolate the
fixed-claim merge). -/
def optsNoJti : SignerOptions :=
  { secret := some (.vStr "secretsecretsecret"), noTimestamp := some (.vBool true) }

/-- A signer whose secret is a callback, making the returned signer
asynchronous. -/
def optsCallback : SignerOptions := { secret := some (.vFunc 0) }

/-- A signer whose algorithm option lies outside the supported set. -/
def optsBadAlg : SignerOptions :=
  { secret := some (.vStr "k"), algorithm := some (.vStr "FOO") }

/-- A signer carrying an extra-header object that overrides `alg`. -/
def optsAlgHeader : SignerOptions :=
  { secret := some (.vStr "k"), header := some (.vObj [("alg", .vStr "none")]) }

/-! Helper lemmas about the object-merge primitives. -/

theorem objGet_objSet_self (l : List (String × JsValue)) (k : String) (v : JsValue) :
    objGet (objSet l k v) k = some v := by
  induction l with
  | nil => simp [objSet, objGet]
  | cons kv rest ih =>
    obtain ⟨k1, v1⟩ := kv
    by_cases h : k1 = k
    · subst h; simp [objSet, objGet]
    · simp [objSet, objGet, h, ih]

theorem objGet_objSet_ne (l : List (String × JsValue)) (k k1 : String) (v : JsValue)
    (h : k1 ≠ k) : objGet (objSet l k1 v) k = objGet l k := by
  induction l with
  | nil => simp [objSet, objGet, h]
  | cons kv rest ih =>
    obtain ⟨k2, v2⟩ := kv
    by_cases h2 : k2 = k1
    · subst h2; simp [objSet, objGet, h]
    · simp [objSet, objGet, h2, ih]

theorem objGet_objSpreadList_notMem (over base : List (String × JsValue)) (k : String)
    (h : k ∉ over.map Prod.fst) :
    objGet (objSpreadList base over) k = objGet base k := by
  induction over generalizing base with
  | nil => simp [objSpreadList]
  | cons kv rest ih =>
    obtain ⟨k1, v1⟩ := kv
    simp only [List.map_cons, List.mem_cons] at h
    push_neg at h
    have : objSpreadList base ((k1, v1) :: rest) = objSpreadList (objSet base k1 v1) rest := rfl
    rw [this, ih _ h.2, objGet_objSet_ne _ _ _ _ (fun e => h.1 e.symm)]

theorem objGet_objSpreadList_mem (over base : List (String × JsValue)) (k : String)
    (v : JsValue) (hnd : (over.map Prod.fst).Nodup) (hmem : (k, v) ∈ over) :
    objGet (objSpreadList base over) k = some v := by
  induction over generalizing base with
  | nil => cases hmem
  | cons kv rest ih =>
    obtain ⟨k1, v1⟩ := kv
    simp only [List.map_cons, List.nodup_cons] at hnd
    have hstep : objSpreadList base ((k1, v1) :: rest) = objSpreadList (objSet base k1 v1) rest := rfl
    rcases List.mem_cons.mp hmem with heq | hrest
    · injection heq with hk hv
      subst hk; subst hv
      have hnotin : k ∉ rest.map Prod.fst := hnd.1
      rw [hstep, objGet_objSpreadList_notMem _ _ _ hnotin, objGet_objSet_self]
    · rw [hstep]
      exact ih _ hnd.2 hrest

theorem objSet_keys (l : List (String × JsValue)) (k : String) (v : JsValue) :
    (objSet l k v).map Prod.fst =
      if k ∈ l.map Prod.fst then l.map Prod.fst else l.map Prod.fst ++ [k] := by
  induction l with
  | nil => simp [objSet]
  | cons kv rest ih =>
    obtain ⟨k1, v1⟩ := kv
    by_cases h : k1 = k
    · subst h; simp [objSet]
    · have h' : ¬ k = k1 := fun e => h e.symm
      by_cases hm : k ∈ rest.map Prod.fst
      · simp [objSet, h, ih, hm, h']
      · simp [objSet, h, ih, hm, h']

theorem nodup_objSet (l : List (String × JsValue)) (k : String) (v : JsValue)
    (h : (l.map Prod.fst).Nodup) : ((objSet l k v).map Prod.fst).Nodup := by
  rw [objSet_keys]
  by_cases hm : k ∈ l.map Prod.fst
  · simpa [hm] using h
  · simp only [if_neg hm]
    refine List.Nodup.append h (List.nodup_singleton k) ?_
    intro a ha hb
    simp only [List.mem_singleton] at hb
    subst hb
    exact hm ha

theorem nodup_objSpreadList (over base : List (String × JsValue))
    (h : (base.map Prod.fst).Nodup) : ((objSpreadList base over).map Prod.fst).Nodup := by
  induction over generalizing base with
  | nil => simpa [objSpreadList] using h
  | cons kv rest ih =>
    have hstep : objSpreadList base (kv :: rest) = objSpreadList (objSet base kv.1 kv.2) rest := rfl
    rw [hstep]
    exact ih _ (nodup_objSet _ _ _ h)

theorem objGet_eq_none_of_notMem (l : List (String × JsValue)) (k : String)
    (h : k ∉ l.map Prod.fst) : objGet l k = none := by
  induction l with
  | nil => rfl
  | cons kv rest ih =>
    obtain ⟨k1, v1⟩ := kv
    simp only [List.map_cons, List.mem_cons] at h
    push_neg at h
    have h' : ¬ k1 = k := fun e => h.1 e.symm
    simp [objGet, h', ih h.2]

theorem objGet_filter_eq_none_of_notMem (l : List (String × JsValue))
    (p : String × JsValue → Bool) (k : String) (h : k ∉ l.map Prod.fst) :
    objGet (l.filter p) k = none := by
  apply objGet_eq_none_of_notMem
  intro hmem
  apply h
  obtain ⟨kv, hkv, hfst⟩ := List.mem_map.mp hmem
  exact List.mem_map.mpr ⟨kv, (List.mem_filter.mp hkv).1, hfst⟩

theorem serializableFields_cons (k1 : String) (v1 : JsValue) (rest : List (String × JsValue)) :
    serializableFields ((k1, v1) :: rest) =
      if (jsonStringify v1).isSome = true then (k1, v1) :: serializableFields rest
      else serializableFields rest := by
  simp [serializableFields, List.filter_cons]

theorem objGet_serializableFields (l : List (String × JsValue)) (k : String)
    (hnd : (l.map Prod.fst).Nodup) :
    objGet (serializableFields l) k =
      (objGet l k).bind (fun v => if (jsonStringify v).isSome then some v else none) := by
  induction l with
  | nil => simp [serializableFields, objGet]
  | cons kv rest ih =>
    obtain ⟨k1, v1⟩ := kv
    simp only [List.map_cons, List.nodup_cons] at hnd
    rw [serializableFields_cons]
    by_cases hp : (jsonStringify v1).isSome = true
    · rw [if_pos hp]
      by_cases hk : k1 = k
      · subst hk; simp [objGet, hp]
      · simp only [objGet, if_neg hk]
        exact ih hnd.2
    · rw [if_neg hp]
      by_cases hk : k1 = k
      · subst hk
        have hnone : objGet (serializableFields rest) k1 = none := by
          simp only [serializableFields]
          exact objGet_filter_eq_none_of_notMem _ _ _ hnd.1
        rw [hnone]
        simp [objGet, hp]
      · simp only [objGet, if_neg hk]
        exact ih hnd.2

theorem jsonFieldParts_serializableFields (l : List (String × JsValue)) :
    jsonFieldParts (serializableFields l) = jsonFieldParts l := by
  induction l with
  | nil => rfl
  | cons kv rest ih =>
    obtain ⟨k1, v1⟩ := kv
    rw [serializableFields_cons]
    cases hv : jsonStringify v1 with
    | none =>
      rw [if_neg (by simp [hv])]
      rw [ih]
      simp [jsonFieldParts, hv]
    | some sv =>
      rw [if_pos (by simp [hv])]
      simp only [jsonFieldParts, hv]
      rw [ih]

/-! Helper lemmas about the text encodings. -/

theorem b64Char_mem (n : Nat) : b64Char n ∈ base64Chars := by
  unfold b64Char
  rcases h : base64Chars.get? n with _ | c
  · rw [List.getD_eq_getElem?_getD, ← List.get?_eq_getElem?, h]
    decide
  · rw [List.getD_eq_getElem?_getD, ← List.get?_eq_getElem?, h]
    exact List.get?_mem h

theorem mem_base64EncodeList (bs : List Nat) (c : Char) (h : c ∈ base64EncodeList bs) :
    c ∈ base64Chars ∨ c = '=' := by
  induction bs using base64EncodeList.induct with
  | case1 => cases h
  | case2 b1 =>
    simp only [base64EncodeList, List.mem_cons] at h
    rcases h with h | h | h | h
    · exact .inl (h ▸ b64Char_mem _)
    · exact .inl (h ▸ b64Char_mem _)
    · exact .inr h
    · simp at h
      exact .inr h
  | case3 b1 b2 =>
    simp only [base64EncodeList, List.mem_cons] at h
    rcases h with h | h | h | h
    · exact .inl (h ▸ b64Char_mem _)
    · exact .inl (h ▸ b64Char_mem _)
    · exact .inl (h ▸ b64Char_mem _)
    · simp at h
      exact .inr h
  | case4 b1 b2 b3 rest ih =>
    simp only [base64EncodeList, List.mem_cons] at h
    rcases h with h | h | h | h | h
    · exact .inl (h ▸ b64Char_mem _)
    · exact .inl (h ▸ b64Char_mem _)
    · exact .inl (h ▸ b64Char_mem _)
    · exact .inl (h ▸ b64Char_mem _)
    · exact ih h

theorem base64Chars_no_dot : ∀ c ∈ base64Chars, c ≠ '.' := by decide

theorem base64Encode_no_dot (bs : List Nat) (c : Char) (h : c ∈ (base64Encode bs).data) :
    c ≠ '.' := by
  rcases mem_base64EncodeList bs c h with hm | he
  · exact base64Chars_no_dot c hm
  · subst he; decide

theorem b64UrlChar_no_dot (c : Char) (h : c ≠ '.') : b64UrlChar c ≠ '.' := by
  unfold b64UrlChar
  split
  · decide
  · split
    · decide
    · exact h

theorem base64UrlEncode_no_dot (s : String) (hs : ∀ c ∈ s.data, c ≠ '.') :
    ∀ c ∈ (base64UrlEncode s).data, c ≠ '.' := by
  intro c hc
  simp only [base64UrlEncode, List.mem_map] at hc
  obtain ⟨c0, hc0, hmap⟩ := hc
  have hc0s : c0 ∈ s.data := (List.mem_filter.mp hc0).1
  exact hmap ▸ b64UrlChar_no_dot c0 (hs c0 hc0s)

theorem base64EncodeList_eq_nil (bs : List Nat) : base64EncodeList bs = [] ↔ bs = [] := by
  rcases bs with _ | ⟨b1, _ | ⟨b2, _ | ⟨b3, rest⟩⟩⟩ <;> simp [base64EncodeList]

theorem eq_mark_false_of_mem_base64Chars (c : Char) (h : c ∈ base64Chars) : c ≠ '=' := by
  have hall : ∀ x ∈ base64Chars, x ≠ '=' := by decide
  exact hall c h

theorem base64UrlEncode_base64Encode_eq_empty (bs : List Nat) :
    base64UrlEncode (base64Encode bs) = "" ↔ bs = [] := by
  constructor
  · intro h
    rcases hb : bs with _ | ⟨b1, rest⟩
    · rfl
    · exfalso
      subst hb
      have hdata : (base64UrlEncode (base64Encode (b1 :: rest))).data = [] := by
        rw [h]
      simp only [base64UrlEncode, base64Encode] at hdata
      rw [List.map_eq_nil_iff] at hdata
      have hhead : b64Char (b1 / 4 % 64) ∈ base64EncodeList (b1 :: rest) := by
        rcases rest with _ | ⟨b2, _ | ⟨b3, rest3⟩⟩ <;> simp [base64EncodeList]
      have hne : b64Char (b1 / 4 % 64) ≠ '=' :=
        eq_mark_false_of_mem_base64Chars _ (b64Char_mem _)
      have : b64Char (b1 / 4 % 64) ∈ (⟨base64EncodeList (b1 :: rest)⟩ : String).data.filter
          (fun c => c ≠ '=') := by
        apply List.mem_filter.mpr
        exact ⟨hhead, by simpa using hne⟩
      rw [hdata] at this
      cases this
  · intro h
    subst h
    rfl

theorem charUtf8Bytes_ne_nil (c : Char) : charUtf8Bytes c ≠ [] := by
  simp only [charUtf8Bytes]
  split
  · simp
  · split
    · simp
    · split
      · simp
      · simp

theorem utf8Bytes_eq_nil (s : String) : utf8Bytes s = [] ↔ s.data = [] := by
  rcases hd : s.data with _ | ⟨c, cs⟩
  · simp only [utf8Bytes, hd, List.foldr_nil]
  · simp only [utf8Bytes, hd, List.foldr_cons]
    constructor
    · intro h
      exact absurd (List.append_eq_nil.mp h).1 (charUtf8Bytes_ne_nil c)
    · intro h
      cases h

theorem splitDotList_no_dot (l : List Char) (h : ∀ c ∈ l, c ≠ '.') :
    splitDotList l = [l] := by
  induction l with
  | nil => rfl
  | cons c rest ih =>
    have hc : c ≠ '.' := h c (by simp)
    have hrest := ih (fun x hx => h x (by simp [hx]))
    simp [splitDotList, hc, hrest]

theorem splitDotList_append (a t : List Char) (h : ∀ c ∈ a, c ≠ '.') :
    splitDotList (a ++ '.' :: t) = a :: splitDotList t := by
  induction a with
  | nil => simp [splitDotList]
  | cons c rest ih =>
    have hc : c ≠ '.' := h c (by simp)
    have hrest := ih (fun x hx => h x (by simp [hx]))
    simp [splitDotList, hc, hrest]

theorem splitSegments_three (a b c : String)
    (ha : ∀ ch ∈ a.data, ch ≠ '.') (hb : ∀ ch ∈ b.data, ch ≠ '.')
    (hc : ∀ ch ∈ c.data, ch ≠ '.') :
    splitSegments (a ++ "." ++ b ++ "." ++ c) = [a, b, c] := by
  have hdata : (a ++ "." ++ b ++ "." ++ c).data
      = a.data ++ '.' :: (b.data ++ '.' :: c.data) := by
    simp [String.data_append]
  unfold splitSegments
  rw [hdata, splitDotList_append _ _ ha, splitDotList_append _ _ hb, splitDotList_no_dot _ hc]
  rfl

/-! Helper lemmas about the signer functions. -/

theorem string_eq_empty_iff (s : String) : s = "" ↔ s.data = [] := by
  constructor
  · intro h; rw [h]
  · intro h
    cases s
    simp only at h
    rw [h]

theorem spreadVal_obj (l : List (String × JsValue)) (v : JsValue) :
    ∃ fs, spreadVal (.vObj l) v = .vObj fs := by
  cases v <;> exact ⟨_, rfl⟩

theorem jsonStringifyD_obj_data_ne_nil (fs : List (String × JsValue)) :
    (jsonStringifyD (.vObj fs)).data ≠ [] := by
  simp only [jsonStringifyD, jsonStringify, Option.getD_some]
  rw [String.data_append, String.data_append]
  simp

theorem createSignerChecked_ok_elim (secret algorithm encoding noTimestamp mutatePayload
    useWorkerThreads expiresIn notBefore jti aud iss sub nonce kid additionalHeader : JsValue)
    (swt : Bool) (cfg : SignerCfg)
    (h : createSignerChecked secret algorithm encoding noTimestamp mutatePayload
      useWorkerThreads expiresIn notBefore jti aud iss sub nonce kid additionalHeader swt
      = .ok cfg) :
    cfg = { algorithm := algString algorithm
            secret := secret
            encoding := encoding
            noTimestamp := noTimestamp
            mutatePayload := mutatePayload
            useWorkerThreads := useWorkerThreads
            expiresIn := expiresIn
            notBefore := notBefore
            kid := kid
            header := additionalHeader
            fixedPayload := [("jti", jti), ("aud", aud), ("iss", iss), ("sub", sub), ("nonce", nonce)]
            isSync := signerIsSync secret useWorkerThreads swt } := by
  unfold createSignerChecked at h
  cases hv : signerValidationError secret algorithm encoding expiresIn notBefore jti aud iss
      sub nonce kid additionalHeader with
  | some e =>
    rw [hv] at h
    exact absurd h (by simp)
  | none =>
    rw [hv] at h
    dsimp only at h
    injection h with h
    rw [← h]

theorem createSigner_ok_elim (opts : SignerOptions) (swt : Bool) (cfg : SignerCfg)
    (h : createSigner opts swt = .ok cfg) : cfg = signerCfgOf opts swt :=
  createSignerChecked_ok_elim _ _ _ _ _ _ _ _ _ _ _ _ _ _ _ _ _ h

theorem additionalClaims_key_cases (b : JsNumber) (nt ei nb : JsValue)
    (kv : String × JsValue) (h : kv ∈ additionalClaims b nt ei nb) :
    kv.1 = "iat" ∨ kv.1 = "exp" ∨ kv.1 = "nbf" := by
  simp only [additionalClaims, List.mem_append] at h
  rcases h with (h | h) | h
  · split at h
    · cases h
    · rw [List.mem_singleton] at h; subst h; exact .inl rfl
  · split at h
    · rw [List.mem_singleton] at h; subst h; exact .inr (.inl rfl)
    · cases h
  · split at h
    · rw [List.mem_singleton] at h; subst h; exact .inr (.inr rfl)
    · cases h

theorem notMem_additionalClaims_keys (b : JsNumber) (nt ei nb : JsValue) (k : String)
    (h1 : k ≠ "iat") (h2 : k ≠ "exp") (h3 : k ≠ "nbf") :
    k ∉ (additionalClaims b nt ei nb).map Prod.fst := by
  intro hm
  obtain ⟨kv, hkv, hfst⟩ := List.mem_map.mp hm
  rcases additionalClaims_key_cases _ _ _ _ _ hkv with h | h | h
  · exact h1 (by rw [← hfst, h])
  · exact h2 (by rw [← hfst, h])
  · exact h3 (by rw [← hfst, h])

theorem additionalClaims_keys_nodup (b : JsNumber) (nt ei nb : JsValue) :
    ((additionalClaims b nt ei nb).map Prod.fst).Nodup := by
  unfold additionalClaims
  split <;> split <;> split <;> simp

theorem iat_mem_additionalClaims (b : JsNumber) (nt ei nb : JsValue)
    (h : jsTruthy nt = false) :
    ("iat", JsValue.vNum (.ofInt b.floorDiv1000)) ∈ additionalClaims b nt ei nb := by
  simp [additionalClaims, h]

theorem exp_mem_additionalClaims (b : JsNumber) (nt ei nb : JsValue)
    (h : jsTruthy ei = true) :
    ("exp", JsValue.vNum (.ofInt ((b.addNum ((toNumber ei).getD (.ofInt 0))).floorDiv1000)))
      ∈ additionalClaims b nt ei nb := by
  simp [additionalClaims, h]

theorem nbf_mem_additionalClaims (b : JsNumber) (nt ei nb : JsValue)
    (h : jsTruthy nb = true) :
    ("nbf", JsValue.vNum (.ofInt ((b.addNum ((toNumber nb).getD (.ofInt 0))).floorDiv1000)))
      ∈ additionalClaims b nt ei nb := by
  simp [additionalClaims, h]

theorem mergedPayloadFields_obj (now : ℤ) (fs fixed : List (String × JsValue))
    (nt ei nb : JsValue) :
    mergedPayloadFields now (.vObj fs) fixed nt ei nb
      = .ok (mergedObjFields now fs fixed nt ei nb) := rfl

theorem encodePayload_str (now : ℤ) (s : String) (enc : JsValue)
    (fixed : List (String × JsValue)) (nt ei nb mp : JsValue) :
    encodePayload now (.vStr s) enc fixed nt ei nb mp
      = .ok (base64UrlEncode (base64Encode (utf8Bytes s)), .vStr s) := rfl

theorem encodePayload_buf (now : ℤ) (bs : List Nat) (enc : JsValue)
    (fixed : List (String × JsValue)) (nt ei nb mp : JsValue) :
    encodePayload now (.vBuf bs) enc fixed nt ei nb mp
      = .ok (base64UrlEncode (base64Encode (utf8Bytes (bufferToString enc bs))), .vBuf bs) := rfl

theorem encodePayload_obj (now : ℤ) (fs : List (String × JsValue)) (enc : JsValue)
    (fixed : List (String × JsValue)) (nt ei nb mp : JsValue) :
    encodePayload now (.vObj fs) enc fixed nt ei nb mp
      = .ok (base64UrlEncode (base64Encode (utf8Bytes
          (jsonStringifyD (.vObj (mergedObjFields now fs fixed nt ei nb))))),
        if jsTruthy mp then .vObj (mergedObjFields now fs fixed nt ei nb) else .vObj fs) := rfl

theorem encodePayload_arr (now : ℤ) (vs : List JsValue) (enc : JsValue)
    (fixed : List (String × JsValue)) (nt ei nb mp : JsValue) :
    encodePayload now (.vArr vs) enc fixed nt ei nb mp
      = .ok (base64UrlEncode (base64Encode (utf8Bytes
          (jsonStringifyD (.vObj (objSpreadList (objSpreadList (structuredBase (.vArr vs)) fixed)
            (additionalClaims (iatBaselineMs now .vUndefined) nt ei nb)))))),
        if jsTruthy mp then
          .vObj (objSpreadList (objSpreadList (structuredBase (.vArr vs)) fixed)
            (additionalClaims (iatBaselineMs now .vUndefined) nt ei nb))
        else .vArr vs) := rfl

theorem encodePayload_null (now : ℤ) (enc : JsValue) (fixed : List (String × JsValue))
    (nt ei nb mp : JsValue) :
    encodePayload now .vNull enc fixed nt ei nb mp
      = .error (.typeError "Cannot read properties of null (reading iat)") := rfl

theorem base64Encode_ne_empty (bs : List Nat) (h : bs ≠ []) : base64Encode bs ≠ "" := by
  intro he
  have hd : base64EncodeList bs = [] := by
    have := congrArg String.data he
    exact this
  exact h ((base64EncodeList_eq_nil bs).mp hd)

theorem signJwtAsync_fetchErr (core : String → JsValue → String → String → List Nat)
    (fetched : Except String JsValue) (cfg : SignerCfg) (payload : JsValue) (now : ℤ)
    (msg : String) (eh : String) (hdr : JsValue)
    (hf : jsTypeof cfg.secret = "function") (hfe : fetched = .error msg)
    (hH : encodeHeader cfg.algorithm cfg.kid cfg.header payload cfg.encoding = .ok (eh, hdr)) :
    signJwtAsync core fetched cfg payload now
      = .error (.tokenError .secretFetchingError "Cannot fetch secret.") := by
  unfold signJwtAsync
  rw [hH, hfe]
  simp only [hf, beq_self_eq_true, if_pos]
  rfl

theorem signJwtSync_eq (core : String → JsValue → String → String → List Nat)
    (cfg : SignerCfg) (payload : JsValue) (now : ℤ) (eh : String) (hdr : JsValue)
    (ep : String) (post : JsValue)
    (hH : encodeHeader cfg.algorithm cfg.kid cfg.header payload cfg.encoding = .ok (eh, hdr))
    (hP : encodePayload now payload cfg.encoding cfg.fixedPayload
      cfg.noTimestamp cfg.expiresIn cfg.notBefore cfg.mutatePayload = .ok (ep, post)) :
    signJwtSync core cfg payload now
      = .ok (eh ++ "." ++ ep ++ "." ++
          base64UrlEncode (base64Encode (createSignature core cfg.algorithm cfg.secret eh ep))) := by
  unfold signJwtSync
  rw [hH, hP]
  rfl

theorem headerObject_obj (alg : String) (kid addH payload1 : JsValue) :
    ∃ fs, headerObject alg kid addH payload1 = .vObj fs := by
  unfold headerObject
  exact spreadVal_obj _ _

theorem encodeHeader_ok_obj (alg : String) (kid addH payload enc : JsValue)
    (eh : String) (hdr : JsValue)
    (h : encodeHeader alg kid addH payload enc = .ok (eh, hdr)) :
    ∃ fs, hdr = .vObj fs ∧ eh = base64Encode (utf8Bytes (jsonStringifyD (.vObj fs))) := by
  simp only [encodeHeader] at h
  split at h
  · simp at h
  · obtain ⟨fs, hfs⟩ := headerObject_obj alg kid addH (payloadToText payload enc)
    rw [hfs] at h
    simp only [Except.ok.injEq, Prod.mk.injEq] at h
    exact ⟨fs, h.2.symm, by rw [← h.1, h.2]⟩

theorem fixedPayload_keys_nodup (j a2 i2 s2 n2 : JsValue) :
    (([("jti", j), ("aud", a2), ("iss", i2), ("sub", s2), ("nonce", n2)]
      : List (String × JsValue)).map Prod.fst).Nodup := by
  show (["jti", "aud", "iss", "sub", "nonce"] : List String).Nodup
  decide

/-! The claims. -/

/-- C2 (code bug): the spec says every segment of the wire format, the header
segment included, is URL-safe unpadded base64, so the claim asserts the
encoded header never contains a plus, slash or padding character.  The source
returns plain base64 for the header segment, without the URL-safe conversion
it applies to the payload and signature segments: a signer with `kid` set to
`a` produces a header segment ending in `==` padding, which the URL-safe
encoding would have stripped. -/
theorem c2_header_segment_not_base64url :
    encodeHeader "HS256" (.vStr "a") .vUndefined (.vObj []) .vUndefined
      = .ok ("eyJhbGciOiJIUzI1NiIsInR5cCI6IkpXVCIsImtpZCI6ImEifQ==",
        .vObj [("alg", .vStr "HS256"), ("typ", .vStr "JWT"), ("kid", .vStr "a")])
    ∧ '=' ∈ "eyJhbGciOiJIUzI1NiIsInR5cCI6IkpXVCIsImtpZCI6ImEifQ==".data
    ∧ base64UrlEncode "eyJhbGciOiJIUzI1NiIsInR5cCI6IkpXVCIsImtpZCI6ImEifQ=="
        ≠ "eyJhbGciOiJIUzI1NiIsInR5cCI6IkpXVCIsImtpZCI6ImEifQ==" :=
  ⟨rfl, by decide, by decide⟩

/-- C3 counterexample: the claim says the token of every supported algorithm,
`none` included, splits into three non-empty segments.  Signing an object
payload under algorithm `none` (whose signature the spec fixes as empty;
`createSignature` lives in the absent `src/crypto.js`) produces a token whose
third segment is empty.  The host-crypto stand-in `coreMark` returns nonempty
bytes, showing they are ignored for `none`. -/
theorem c3_none_empty_signature_counterexample :
    (createSigner optsNoneAlg true).bind
      (fun cfg => signJwtSync coreMark cfg (.vObj [("a", .vNum (.ofInt 1))]) 0)
      = .ok "eyJhbGciOiJub25lIiwidHlwIjoiSldUIn0=.eyJhIjoxfQ."
    ∧ splitSegments "eyJhbGciOiJub25lIiwidHlwIjoiSldUIn0=.eyJhIjoxfQ."
        = ["eyJhbGciOiJub25lIiwidHlwIjoiSldUIn0=", "eyJhIjoxfQ", ""] :=
  ⟨rfl, rfl⟩

/-- C1 counterexample: the claim says a signer constructed without the `jti`
option preserves a `jti` claim of the caller's payload unchanged.  In the
source, `fixedPayload` always carries all five keys; an unconfigured one
holds `undefined`, which overwrites the caller's value in the spread and is
then dropped by `JSON.stringify`: the payload with `jti` set to `x` encodes
to the JSON of just its other field. -/
theorem c1_unconfigured_jti_clobbered :
    (createSigner optsNoJti true).bind
      (fun cfg => encodePayload 0 (.vObj [("jti", .vStr "x"), ("a", .vNum (.ofInt 1))])
        cfg.encoding cfg.fixedPayload cfg.noTimestamp cfg.expiresIn cfg.notBefore
        cfg.mutatePayload)
      = .ok ("eyJhIjoxfQ", .vObj [("jti", .vStr "x"), ("a", .vNum (.ofInt 1))])
    ∧ base64UrlEncode (base64Encode (utf8Bytes "\x7b\"a\":1\x7d")) = "eyJhIjoxfQ"
    ∧ (createSigner optsNoJti true).bind
      (fun cfg => (mergedPayloadFields 0 (.vObj [("jti", .vStr "x"), ("a", .vNum (.ofInt 1))])
        cfg.fixedPayload cfg.noTimestamp cfg.expiresIn cfg.notBefore).map
          (fun m => objGet (serializableFields m) "jti"))
      = .ok none :=
  ⟨rfl, rfl, rfl⟩

/-- C4 counterexample: the claim says the `iat` baseline is the payload's
existing numeric `iat` whenever present.  For the present value `0` the
source computes `0 * 1000 || Date.now()`, which is falsy and falls back to
the clock: at clock 5000 ms the emitted `iat` is 5, not the 0 the claim
predicts. -/
theorem c4_zero_iat_falls_back_to_clock :
    (mergedPayloadFields 5000 (.vObj [("iat", .vNum (.ofInt 0))])
        [("jti", .vUndefined), ("aud", .vUndefined), ("iss", .vUndefined),
         ("sub", .vUndefined), ("nonce", .vUndefined)]
        .vUndefined .vUndefined .vUndefined).map (fun m => objGet m "iat")
      = .ok (some (.vNum (.ofInt 5)))
    ∧ (JsValue.vNum (.ofInt 5) : JsValue) ≠ .vNum (.ofInt 0) := by
  refine ⟨rfl, ?_⟩
  intro h
  injection h with h
  injection h with h
  exact absurd h (by decide)

/-- C5 counterexample: the claim says the deferred signer rejects with a
`TokenError` on any failure.  With a callback secret (hence the asynchronous
signer: `isSync` is false) and a `null` payload, the rejection is the
untagged engine `TypeError` from reading `iat` of `null`, not a
`TokenError` (its `errCode` is `none`). -/
theorem c5_async_rejects_untagged_counterexample :
    (createSigner optsCallback true).map SignerCfg.isSync = .ok false
    ∧ (createSigner optsCallback true).bind
        (fun cfg => signJwtAsync coreNull (.ok (.vStr "k")) cfg .vNull 0)
      = .error (.typeError "Cannot read properties of null (reading iat)")
    ∧ errCode ((createSigner optsCallback true).bind
        (fun cfg => signJwtAsync coreNull (.ok (.vStr "k")) cfg .vNull 0)) = none :=
  ⟨rfl, rfl, rfl⟩

/-- C3 amended: splitting any token the synchronous signer returns on `.`
yields exactly 3 segments; the header segment is always non-empty; the
payload segment is empty exactly when the payload is a raw string or buffer
whose decoded text is empty; and the signature segment is empty exactly when
the raw signature bytes are empty — which the spec fixes to be the case for
algorithm `none`.  (The asynchronous signer assembles the token by the same
expression.) -/
theorem c3_token_segments_amended (core : String → JsValue → String → String → List Nat)
    (cfg : SignerCfg) (payload : JsValue) (now : ℤ) (tok : String)
    (h : signJwtSync core cfg payload now = .ok tok) :
    ∃ a b c, splitSegments tok = [a, b, c] ∧ a ≠ ""
      ∧ (b = "" ↔ payloadText cfg.encoding payload = some "")
      ∧ (c = "" ↔ createSignature core cfg.algorithm cfg.secret a b = []) := by
  cases hH : encodeHeader cfg.algorithm cfg.kid cfg.header payload cfg.encoding with
  | error e =>
    exfalso
    unfold signJwtSync at h
    rw [hH] at h
    exact Except.noConfusion h
  | ok pr =>
    obtain ⟨eh, hdr⟩ := pr
    cases hP : encodePayload now payload cfg.encoding cfg.fixedPayload cfg.noTimestamp
        cfg.expiresIn cfg.notBefore cfg.mutatePayload with
    | error e =>
      exfalso
      unfold signJwtSync at h
      rw [hH, hP] at h
      exact Except.noConfusion h
    | ok pr2 =>
      obtain ⟨ep, post⟩ := pr2
      have htok := signJwtSync_eq core cfg payload now eh hdr ep post hH hP
      rw [h] at htok
      injection htok with htok
      obtain ⟨fs, hfs, heh⟩ := encodeHeader_ok_obj _ _ _ _ _ _ _ hH
      have hehdot : ∀ ch ∈ eh.data, ch ≠ '.' := by
        rw [heh]; exact base64Encode_no_dot _
      have hehne : eh ≠ "" := by
        rw [heh]
        apply base64Encode_ne_empty
        rw [ne_eq, utf8Bytes_eq_nil]
        exact jsonStringifyD_obj_data_ne_nil fs
      have hpair : (∀ ch ∈ ep.data, ch ≠ '.')
          ∧ (ep = "" ↔ payloadText cfg.encoding payload = some "") := by
        cases payload with
        | vStr s0 =>
          rw [encodePayload_str] at hP
          simp only [Except.ok.injEq, Prod.mk.injEq] at hP
          obtain ⟨hep, hpost⟩ := hP
          subst hep
          refine ⟨base64UrlEncode_no_dot _ (base64Encode_no_dot _), ?_⟩
          rw [base64UrlEncode_base64Encode_eq_empty, utf8Bytes_eq_nil, ← string_eq_empty_iff]
          simp [payloadText]
        | vBuf bs =>
          rw [encodePayload_buf] at hP
          simp only [Except.ok.injEq, Prod.mk.injEq] at hP
          obtain ⟨hep, hpost⟩ := hP
          subst hep
          refine ⟨base64UrlEncode_no_dot _ (base64Encode_no_dot _), ?_⟩
          rw [base64UrlEncode_base64Encode_eq_empty, utf8Bytes_eq_nil, ← string_eq_empty_iff]
          simp [payloadText]
        | vObj fs2 =>
          rw [encodePayload_obj] at hP
          simp only [Except.ok.injEq, Prod.mk.injEq] at hP
          obtain ⟨hep, hpost⟩ := hP
          subst hep
          refine ⟨base64UrlEncode_no_dot _ (base64Encode_no_dot _), ?_⟩
          constructor
          · intro hemp
            exfalso
            rw [base64UrlEncode_base64Encode_eq_empty, utf8Bytes_eq_nil] at hemp
            exact jsonStringifyD_obj_data_ne_nil _ hemp
          · intro hpt
            exact absurd hpt (by simp [payloadText])
        | vArr vs =>
          rw [encodePayload_arr] at hP
          simp only [Except.ok.injEq, Prod.mk.injEq] at hP
          obtain ⟨hep, hpost⟩ := hP
          subst hep
          refine ⟨base64UrlEncode_no_dot _ (base64Encode_no_dot _), ?_⟩
          constructor
          · intro hemp
            exfalso
            rw [base64UrlEncode_base64Encode_eq_empty, utf8Bytes_eq_nil] at hemp
            exact jsonStringifyD_obj_data_ne_nil _ hemp
          · intro hpt
            exact absurd hpt (by simp [payloadText])
        | vNull =>
          rw [encodePayload_null] at hP
          exact absurd hP (by simp)
        | vUndefined =>
          exfalso
          have hrej : encodeHeader cfg.algorithm cfg.kid cfg.header JsValue.vUndefined cfg.encoding
              = Except.error (.tokenError .invalidType
                "The payload must be a object, a string or a buffer.") := rfl
          rw [hrej] at hH
          exact Except.noConfusion hH
        | vBool b =>
          exfalso
          have hrej : encodeHeader cfg.algorithm cfg.kid cfg.header (JsValue.vBool b) cfg.encoding
              = Except.error (.tokenError .invalidType
                "The payload must be a object, a string or a buffer.") := rfl
          rw [hrej] at hH
          exact Except.noConfusion hH
        | vNum q =>
          exfalso
          have hrej : encodeHeader cfg.algorithm cfg.kid cfg.header (JsValue.vNum q) cfg.encoding
              = Except.error (.tokenError .invalidType
                "The payload must be a object, a string or a buffer.") := rfl
          rw [hrej] at hH
          exact Except.noConfusion hH
        | vFunc idf =>
          exfalso
          have hrej : encodeHeader cfg.algorithm cfg.kid cfg.header (JsValue.vFunc idf) cfg.encoding
              = Except.error (.tokenError .invalidType
                "The payload must be a object, a string or a buffer.") := rfl
          rw [hrej] at hH
          exact Except.noConfusion hH
      refine ⟨eh, ep,
        base64UrlEncode (base64Encode (createSignature core cfg.algorithm cfg.secret eh ep)),
        ?_, hehne, hpair.2, base64UrlEncode_base64Encode_eq_empty _⟩
      rw [htok]
      exact splitSegments_three _ _ _ hehdot hpair.1
        (base64UrlEncode_no_dot _ (base64Encode_no_dot _))

/-- C3 amended, witness: the amended theorem applied to a concrete HS256
run (host signature stand-in `coreMark`), whose token is computed in
full. -/
theorem c3_token_segments_amended_witness :
    ∃ a b c,
      splitSegments "eyJhbGciOiJIUzI1NiIsInR5cCI6IkpXVCJ9.eyJhIjoxLCJpYXQiOjB9.AQID" = [a, b, c]
      ∧ a ≠ ""
      ∧ (b = "" ↔ payloadText (signerCfgOf optsStatic true).encoding
          (.vObj [("a", .vNum (.ofInt 1))]) = some "")
      ∧ (c = "" ↔ createSignature coreMark (signerCfgOf optsStatic true).algorithm
          (signerCfgOf optsStatic true).secret a b = []) :=
  c3_token_segments_amended coreMark (signerCfgOf optsStatic true)
    (.vObj [("a", .vNum (.ofInt 1))]) 0
    "eyJhbGciOiJIUzI1NiIsInR5cCI6IkpXVCJ9.eyJhIjoxLCJpYXQiOjB9.AQID" rfl

/-- C1 amended: `encodePayload` merges, in order of increasing precedence,
the caller payload fields, then the `fixedPayload`, then the computed
temporal claims — but the `fixedPayload` always carries all five keys
`jti`, `aud`, `iss`, `sub`, `nonce` whether configured or not.  A configured
string value overrides the caller payload; an UNCONFIGURED one carries
`undefined`, which also overrides, so the caller's claim of that name is
dropped from the serialized payload.  Keys touched by none of the fixed or
temporal claims are preserved unchanged. -/
theorem c1_merge_precedence_amended :
    (∀ opts (swt : Bool) cfg, createSigner opts swt = .ok cfg →
      cfg.fixedPayload = [("jti", opts.jti.getD .vUndefined), ("aud", opts.aud.getD .vUndefined),
        ("iss", opts.iss.getD .vUndefined), ("sub", opts.sub.getD .vUndefined),
        ("nonce", opts.nonce.getD .vUndefined)])
    ∧ (∀ (now : ℤ) fields j a2 i2 s2 n2 nt ei nb m,
        mergedPayloadFields now (.vObj fields)
            [("jti", j), ("aud", a2), ("iss", i2), ("sub", s2), ("nonce", n2)] nt ei nb = .ok m →
        (∀ js, j = .vStr js → objGet m "jti" = some (.vStr js))
        ∧ jsonStringifyD (.vObj m) = jsonStringifyD (.vObj (serializableFields m))
        ∧ ((fields.map Prod.fst).Nodup → j = .vUndefined →
            objGet (serializableFields m) "jti" = none)
        ∧ (∀ k, k ≠ "jti" → k ≠ "aud" → k ≠ "iss" → k ≠ "sub" → k ≠ "nonce" →
            k ≠ "iat" → k ≠ "exp" → k ≠ "nbf" → objGet m k = objGet fields k)) := by
  constructor
  · intro opts swt cfg h
    rw [createSigner_ok_elim opts swt cfg h]
    rfl
  · intro now fields j a2 i2 s2 n2 nt ei nb m hm
    rw [mergedPayloadFields_obj] at hm
    injection hm with hm
    subst hm
    simp only [mergedObjFields]
    refine ⟨?_, ?_, ?_, ?_⟩
    · intro js hj
      subst hj
      rw [objGet_objSpreadList_notMem _ _ _
        (notMem_additionalClaims_keys _ _ _ _ _ (by decide) (by decide) (by decide))]
      apply objGet_objSpreadList_mem _ _ _ _ (fixedPayload_keys_nodup _ _ _ _ _)
      exact List.mem_cons_self _ _
    · simp only [jsonStringifyD, jsonStringify, jsonFieldParts_serializableFields]
    · intro hnd hj
      subst hj
      have hund : objGet (objSpreadList (objSpreadList fields
          [("jti", JsValue.vUndefined), ("aud", a2), ("iss", i2), ("sub", s2), ("nonce", n2)])
          (additionalClaims (iatBaselineMs now ((objGet fields "iat").getD .vUndefined)) nt ei nb))
          "jti" = some .vUndefined := by
        rw [objGet_objSpreadList_notMem _ _ _
          (notMem_additionalClaims_keys _ _ _ _ _ (by decide) (by decide) (by decide))]
        apply objGet_objSpreadList_mem _ _ _ _ (fixedPayload_keys_nodup _ _ _ _ _)
        exact List.mem_cons_self _ _
      rw [objGet_serializableFields _ _
        (nodup_objSpreadList _ _ (nodup_objSpreadList _ _ hnd))]
      rw [hund]
      simp [jsonStringify]
    · intro k h1 h2 h3 h4 h5 h6 h7 h8
      rw [objGet_objSpreadList_notMem _ _ _
        (notMem_additionalClaims_keys _ _ _ _ _ h6 h7 h8)]
      rw [objGet_objSpreadList_notMem]
      simp [h1, h2, h3, h4, h5]

/-- C1 amended, witness: the amended theorem applied to concrete runs: a
configured `jti` of `id` overrides the payload, the fixed payload of a
signer built without the option is all `undefined`, and an unconfigured
`jti` makes the caller's `jti` vanish from the serialized fields. -/
theorem c1_merge_precedence_amended_witness :
    (signerCfgOf optsNoJti true).fixedPayload
      = [("jti", .vUndefined), ("aud", .vUndefined), ("iss", .vUndefined),
         ("sub", .vUndefined), ("nonce", .vUndefined)]
    ∧ objGet [("b", JsValue.vNum (.ofInt 2)), ("jti", JsValue.vStr "id"), ("aud", JsValue.vUndefined),
        ("iss", JsValue.vUndefined), ("sub", JsValue.vUndefined), ("nonce", JsValue.vUndefined)]
        "jti" = some (.vStr "id")
    ∧ objGet (serializableFields [("jti", JsValue.vUndefined), ("a", JsValue.vNum (.ofInt 1)),
        ("aud", JsValue.vUndefined), ("iss", JsValue.vUndefined), ("sub", JsValue.vUndefined),
        ("nonce", JsValue.vUndefined)]) "jti" = none :=
  ⟨c1_merge_precedence_amended.1 optsNoJti true _ rfl,
   (c1_merge_precedence_amended.2 0 [("b", .vNum (.ofInt 2))] (.vStr "id") .vUndefined
     .vUndefined .vUndefined .vUndefined (.vBool true) .vUndefined .vUndefined _ rfl).1 "id" rfl,
   ((c1_merge_precedence_amended.2 0 [("jti", .vStr "x"), ("a", .vNum (.ofInt 1))] .vUndefined
     .vUndefined .vUndefined .vUndefined .vUndefined (.vBool true) .vUndefined .vUndefined _
     rfl).2.2.1 (by decide) rfl)⟩

/-- C4 amended: the `iat` baseline (in milliseconds) is the payload's
existing numeric `iat` scaled by 1000 whenever present AND nonzero, and the
current time otherwise — in particular a present `iat` of `0` also falls
back to the clock.  From that baseline the emitted claims are `iat`
(baseline floored to whole seconds, unless suppressed), `exp` (baseline
plus `expiresIn`, floored) and `nbf` (baseline plus `notBefore`, floored),
as `emittedTemporalClaims` spells out. -/
theorem c4_temporal_claims_amended (now : ℤ) (fields fixed : List (String × JsValue))
    (nt ei nb : JsValue) (m : List (String × JsValue))
    (hm : mergedPayloadFields now (.vObj fields) fixed nt ei nb = .ok m) :
    (∀ q : JsNumber, objGet fields "iat" = some (.vNum q) → q.num ≠ 0 →
        emittedTemporalClaims q.scale1000 m nt ei nb)
    ∧ (objGet fields "iat" = none → emittedTemporalClaims (.ofInt now) m nt ei nb)
    ∧ (∀ q : JsNumber, objGet fields "iat" = some (.vNum q) → q.num = 0 →
        emittedTemporalClaims (.ofInt now) m nt ei nb) := by
  rw [mergedPayloadFields_obj] at hm
  injection hm with hm
  subst hm
  have key : ∀ (b : JsNumber) (X : List (String × JsValue)),
      emittedTemporalClaims b (objSpreadList X (additionalClaims b nt ei nb)) nt ei nb := by
    intro b X
    refine ⟨?_, ?_, ?_⟩
    · intro hnt
      exact objGet_objSpreadList_mem _ _ _ _ (additionalClaims_keys_nodup b nt ei nb)
        (iat_mem_additionalClaims b nt ei nb hnt)
    · intro e he hne
      subst he
      have htr : jsTruthy (JsValue.vNum e) = true := by simp [jsTruthy, hne]
      have hmem := exp_mem_additionalClaims b nt (.vNum e) nb htr
      simp only [toNumber, Option.getD_some] at hmem
      exact objGet_objSpreadList_mem _ _ _ _ (additionalClaims_keys_nodup b nt _ nb) hmem
    · intro n he hne
      subst he
      have htr : jsTruthy (JsValue.vNum n) = true := by simp [jsTruthy, hne]
      have hmem := nbf_mem_additionalClaims b nt ei (.vNum n) htr
      simp only [toNumber, Option.getD_some] at hmem
      exact objGet_objSpreadList_mem _ _ _ _ (additionalClaims_keys_nodup b nt ei _) hmem
  refine ⟨?_, ?_, ?_⟩
  · intro q hq hne
    have hb : iatBaselineMs now ((objGet fields "iat").getD .vUndefined) = q.scale1000 := by
      rw [hq]
      simp only [Option.getD_some, iatBaselineMs, toNumber]
      rw [if_neg]
      simp only [JsNumber.scale1000, mul_eq_zero]
      intro hcontra
      rcases hcontra with hc | hc
      · exact hne hc
      · exact absurd hc (by decide)
    simp only [mergedObjFields, hb]
    exact key _ _
  · intro hq
    have hb : iatBaselineMs now ((objGet fields "iat").getD .vUndefined)
        = JsNumber.ofInt now := by
      rw [hq]
      rfl
    simp only [mergedObjFields, hb]
    exact key _ _
  · intro q hq h0
    have hb : iatBaselineMs now ((objGet fields "iat").getD .vUndefined)
        = JsNumber.ofInt now := by
      rw [hq]
      simp only [Option.getD_some, iatBaselineMs, toNumber]
      rw [if_pos]
      simp [JsNumber.scale1000, h0]
    simp only [mergedObjFields, hb]
    exact key _ _

/-- C4 amended, witness: the amended theorem applied to a payload whose
`iat` is 10 seconds, with `expiresIn` 2000 ms and `notBefore` 500 ms:
the merged claims carry `iat` 10, `exp` 12 and `nbf` 10. -/
theorem c4_temporal_claims_amended_witness :
    objGet [("iat", JsValue.vNum (.ofInt 10)), ("jti", JsValue.vUndefined),
        ("aud", JsValue.vUndefined), ("iss", JsValue.vUndefined), ("sub", JsValue.vUndefined),
        ("nonce", JsValue.vUndefined), ("exp", JsValue.vNum (.ofInt 12)),
        ("nbf", JsValue.vNum (.ofInt 10))] "exp" = some (.vNum (.ofInt 12))
    ∧ objGet [("iat", JsValue.vNum (.ofInt 10)), ("jti", JsValue.vUndefined),
        ("aud", JsValue.vUndefined), ("iss", JsValue.vUndefined), ("sub", JsValue.vUndefined),
        ("nonce", JsValue.vUndefined), ("exp", JsValue.vNum (.ofInt 12)),
        ("nbf", JsValue.vNum (.ofInt 10))] "iat" = some (.vNum (.ofInt 10)) := by
  have h := c4_temporal_claims_amended 123456 [("iat", .vNum (.ofInt 10))]
    [("jti", .vUndefined), ("aud", .vUndefined), ("iss", .vUndefined),
     ("sub", .vUndefined), ("nonce", .vUndefined)]
    .vUndefined (.vNum (.ofInt 2000)) (.vNum (.ofInt 500)) _ rfl
  have h1 := h.1 (JsNumber.ofInt 10) rfl (by decide)
  exact ⟨h1.2.1 (.ofInt 2000) rfl (by decide), h1.1 rfl⟩

/-- C5 amended: `createSigner` returns the synchronous signer exactly when
the secret is not a callback and worker-thread offload is not requested or
not supported (the `isSync` of the produced configuration is that very
condition); otherwise `sign` is a deferred result that resolves to the
token or rejects with the raised error — a `TokenError` for the tagged
failures (here: a failed secret fetch rejects with a `SecretFetchingError`
TokenError), but an untagged engine error for a `null` payload, as the
counterexample shows. -/
theorem c5_sync_dispatch_amended :
    (∀ secret uwt (swt : Bool), signerIsSync secret uwt swt = true ↔
        (jsTypeof secret ≠ "function" ∧ (jsTruthy uwt = false ∨ swt = false)))
    ∧ (∀ opts (swt : Bool) cfg, createSigner opts swt = .ok cfg →
        cfg.isSync = signerIsSync (opts.secret.getD .vUndefined)
          (opts.useWorkerThreads.getD .vUndefined) swt)
    ∧ (∀ core fetched (cfg : SignerCfg) payload (now : ℤ) msg eh hdr,
        jsTypeof cfg.secret = "function" → fetched = .error msg →
        encodeHeader cfg.algorithm cfg.kid cfg.header payload cfg.encoding = .ok (eh, hdr) →
        signJwtAsync core fetched cfg payload now
          = .error (.tokenError .secretFetchingError "Cannot fetch secret.")) := by
  refine ⟨?_, ?_, ?_⟩
  · intro secret uwt swt
    simp [signerIsSync, Bool.and_eq_true, Bool.or_eq_true, Bool.not_eq_true', bne_iff_ne]
  · intro opts swt cfg h
    rw [createSigner_ok_elim opts swt cfg h]
    rfl
  · intro core fetched cfg payload now msg eh hdr hf hfe hH
    exact signJwtAsync_fetchErr core fetched cfg payload now msg eh hdr hf hfe hH

/-- C5 amended, witness: the amended theorem applied at concrete inputs —
a static string secret is synchronous, the configuration built over a
callback secret records asynchrony, and a failed fetch of the callback
secret rejects with the `SecretFetchingError` TokenError. -/
theorem c5_sync_dispatch_amended_witness :
    signerIsSync (.vStr "k") .vUndefined true = true
    ∧ (signerCfgOf optsCallback true).isSync
        = signerIsSync (optsCallback.secret.getD .vUndefined)
            (optsCallback.useWorkerThreads.getD .vUndefined) true
    ∧ signJwtAsync coreNull (.error "boom") (signerCfgOf optsCallback true) (.vObj []) 0
        = .error (.tokenError .secretFetchingError "Cannot fetch secret.") :=
  ⟨(c5_sync_dispatch_amended.1 (.vStr "k") .vUndefined true).mpr
      ⟨by decide, Or.inl rfl⟩,
   c5_sync_dispatch_amended.2.1 optsCallback true _ rfl,
   c5_sync_dispatch_amended.2.2 coreNull (.error "boom") (signerCfgOf optsCallback true)
     (.vObj []) 0 "boom" "eyJhbGciOiJIUzI1NiIsInR5cCI6IkpXVCJ9"
     (.vObj [("alg", .vStr "HS256"), ("typ", .vStr "JWT"), ("kid", .vUndefined)])
     rfl rfl rfl⟩

/-- C6 (confirmed): a raw string payload is base64url-encoded directly and
a buffer payload is base64url-encoded as its decoded text — in both cases
the result is exactly the encoding of that text, independent of the fixed
and temporal claim configuration (no claim injection), and the caller's
payload value is untouched.  The generated header carries the structured
marker `typ` = `JWT` only for an object-typed payload: for a string or
buffer payload the `typ` field holds `undefined`, which `JSON.stringify`
drops from the serialized header (last conjunct). -/
theorem c6_raw_payload_no_claims :
    (∀ (now : ℤ) s enc fixed nt ei nb mp,
        encodePayload now (.vStr s) enc fixed nt ei nb mp
          = .ok (base64UrlEncode (base64Encode (utf8Bytes s)), .vStr s))
    ∧ (∀ (now : ℤ) bs enc fixed nt ei nb mp,
        encodePayload now (.vBuf bs) enc fixed nt ei nb mp
          = .ok (base64UrlEncode (base64Encode (utf8Bytes (bufferToString enc bs))), .vBuf bs))
    ∧ (∀ alg kid enc s, encodeHeader alg kid .vUndefined (.vStr s) enc
        = .ok (base64Encode (utf8Bytes (jsonStringifyD
            (.vObj [("alg", .vStr alg), ("typ", .vUndefined), ("kid", kid)]))),
          .vObj [("alg", .vStr alg), ("typ", .vUndefined), ("kid", kid)]))
    ∧ (∀ alg kid enc bs, encodeHeader alg kid .vUndefined (.vBuf bs) enc
        = .ok (base64Encode (utf8Bytes (jsonStringifyD
            (.vObj [("alg", .vStr alg), ("typ", .vUndefined), ("kid", kid)]))),
          .vObj [("alg", .vStr alg), ("typ", .vUndefined), ("kid", kid)]))
    ∧ (∀ alg kid enc fs, encodeHeader alg kid .vUndefined (.vObj fs) enc
        = .ok (base64Encode (utf8Bytes (jsonStringifyD
            (.vObj [("alg", .vStr alg), ("typ", .vStr "JWT"), ("kid", kid)]))),
          .vObj [("alg", .vStr alg), ("typ", .vStr "JWT"), ("kid", kid)]))
    ∧ (∀ alg (kid : JsValue), objGet (serializableFields
        [("alg", JsValue.vStr alg), ("typ", JsValue.vUndefined), ("kid", kid)]) "typ" = none) := by
  refine ⟨fun _ _ _ _ _ _ _ _ => rfl, fun _ _ _ _ _ _ _ _ => rfl,
    fun _ _ _ _ => rfl, fun _ _ _ _ => rfl, fun _ _ _ _ => rfl, ?_⟩
  intro alg kid
  rw [serializableFields_cons, if_pos (by simp [jsonStringify])]
  rw [serializableFields_cons, if_neg (by simp [jsonStringify])]
  rw [serializableFields_cons]
  split
  · simp [serializableFields, objGet]
  · simp [serializableFields, objGet]

/-- C7 (confirmed): in the default mode `encodePayload` leaves the
caller-held payload value untouched (the post-state it reports is the very
object the caller passed), while under a truthy `mutatePayload` the
caller's binding afterwards holds the merged object — which carries the
injected claims, e.g. `iat` — and the encoded segment is the same in both
modes. -/
theorem c7_mutate_payload_frame :
    (∀ (now : ℤ) fields enc fixed nt ei nb,
        (encodePayload now (.vObj fields) enc fixed nt ei nb (.vBool false)).map Prod.snd
          = .ok (.vObj fields))
    ∧ (∀ (now : ℤ) fields enc fixed nt ei nb,
        (encodePayload now (.vObj fields) enc fixed nt ei nb (.vBool true)).map Prod.snd
          = .ok (.vObj (mergedObjFields now fields fixed nt ei nb)))
    ∧ (∀ (now : ℤ) fields enc fixed nt ei nb,
        (encodePayload now (.vObj fields) enc fixed nt ei nb (.vBool true)).map Prod.fst
          = (encodePayload now (.vObj fields) enc fixed nt ei nb (.vBool false)).map Prod.fst)
    ∧ (∀ (now : ℤ) fields fixed nt ei nb, jsTruthy nt = false →
        objGet (mergedObjFields now fields fixed nt ei nb) "iat"
          = some (.vNum (.ofInt (iatBaselineMs now
              ((objGet fields "iat").getD .vUndefined)).floorDiv1000))) := by
  refine ⟨fun _ _ _ _ _ _ _ => rfl, fun _ _ _ _ _ _ _ => rfl,
    fun _ _ _ _ _ _ _ => rfl, ?_⟩
  intro now fields fixed nt ei nb hnt
  unfold mergedObjFields
  exact objGet_objSpreadList_mem _ _ _ _ (additionalClaims_keys_nodup _ nt ei nb)
    (iat_mem_additionalClaims _ nt ei nb hnt)

/-- C7, witness: the frame statements applied at a concrete run, including
the injected `iat` visible in the mutated caller object. -/
theorem c7_mutate_payload_frame_witness :
    (encodePayload 5 (.vObj [("a", JsValue.vNum (.ofInt 1))]) .vUndefined []
        .vUndefined .vUndefined .vUndefined (.vBool false)).map Prod.snd
      = .ok (.vObj [("a", JsValue.vNum (.ofInt 1))])
    ∧ jsTruthy JsValue.vUndefined = false
    ∧ objGet (mergedObjFields 5 [("a", JsValue.vNum (.ofInt 1))] [] .vUndefined .vUndefined
        .vUndefined) "iat"
      = some (.vNum (.ofInt (iatBaselineMs 5
          ((objGet [("a", JsValue.vNum (.ofInt 1))] "iat").getD .vUndefined)).floorDiv1000)) :=
  ⟨c7_mutate_payload_frame.1 5 [("a", .vNum (.ofInt 1))] .vUndefined [] .vUndefined
      .vUndefined .vUndefined,
   rfl,
   c7_mutate_payload_frame.2.2.2 5 [("a", .vNum (.ofInt 1))] [] .vUndefined .vUndefined
      .vUndefined rfl⟩

/-- C8 (confirmed): construction rejects, with an `InvalidOption`
TokenError, every algorithm option whose string lies outside the closed
supported set (the three symmetric-hash widths, the RSA and RSA-PSS widths,
the elliptic-curve widths and the literal `none`) — at construction, before
any signer function exists (the error is the `createSigner` result itself,
so no token can be produced and no per-call check exists); when the option
is absent, the configured algorithm defaults to `HS256`, the weakest
symmetric-hash width. -/
theorem c8_algorithm_validation :
    (∀ opts (swt : Bool) s, opts.algorithm = some (.vStr s) → s ∉ supportedAlgorithmsList →
        createSigner opts swt = .error (.tokenError .invalidOption
          ("The algorithm option must be one of the following values: " ++
            String.intercalate ", " supportedAlgorithmsList ++ ".")))
    ∧ (∀ opts (swt : Bool) cfg, opts.algorithm = none → createSigner opts swt = .ok cfg →
        cfg.algorithm = "HS256")
    ∧ ("HS256" ∈ hashAlgorithms ∧ ∀ a ∈ hashAlgorithms, algWidth "HS256" ≤ algWidth a) := by
  refine ⟨?_, ?_, by decide, by decide⟩
  · intro opts swt s hs hnot
    have hsup : algSupported (.vStr s) = false := by
      simp only [algSupported]
      simpa using hnot
    unfold createSigner createSignerChecked
    rw [hs]
    simp only [Option.getD_some]
    unfold signerValidationError
    rw [hsup]
    rfl
  · intro opts swt cfg ha h
    rw [createSigner_ok_elim opts swt cfg h]
    simp [signerCfgOf, ha, algString]

/-- C8, witness: the validation applied at concrete inputs — the unknown
algorithm `FOO` is rejected at construction, and a signer built without the
option carries `HS256`. -/
theorem c8_algorithm_validation_witness :
    createSigner optsBadAlg true = .error (.tokenError .invalidOption
      ("The algorithm option must be one of the following values: " ++
        String.intercalate ", " supportedAlgorithmsList ++ "."))
    ∧ (signerCfgOf optsStatic true).algorithm = "HS256" :=
  ⟨c8_algorithm_validation.1 optsBadAlg true "FOO" rfl (by decide),
   c8_algorithm_validation.2.1 optsStatic true _ rfl rfl⟩

/-- C9 (confirmed): the extra-header object is spread last over the
generated `alg`/`typ`/`kid` fields, so an `alg` entry in it is what the
serialized header reports — while the signature passed to `createSignature`
is still computed with the signer's configured algorithm, which the token
assembly displays: the header can claim one algorithm while another signs. -/
theorem c9_header_alg_override (core : String → JsValue → String → String → List Nat)
    (cfg : SignerCfg) (payload : JsValue) (now : ℤ) (gs : List (String × JsValue))
    (v : JsValue) (eh ep : String) (hdr post : JsValue)
    (hG : cfg.header = .vObj gs) (hnd : (gs.map Prod.fst).Nodup)
    (hv : ("alg", v) ∈ gs)
    (hH : encodeHeader cfg.algorithm cfg.kid cfg.header payload cfg.encoding = .ok (eh, hdr))
    (hP : encodePayload now payload cfg.encoding cfg.fixedPayload cfg.noTimestamp
      cfg.expiresIn cfg.notBefore cfg.mutatePayload = .ok (ep, post)) :
    signJwtSync core cfg payload now
      = .ok (eh ++ "." ++ ep ++ "." ++
          base64UrlEncode (base64Encode (createSignature core cfg.algorithm cfg.secret eh ep)))
    ∧ ∃ hf, hdr = .vObj hf ∧ objGet hf "alg" = some v := by
  refine ⟨signJwtSync_eq core cfg payload now eh hdr ep post hH hP, ?_⟩
  have hHdr : hdr = headerObject cfg.algorithm cfg.kid cfg.header
      (payloadToText payload cfg.encoding) := by
    simp only [encodeHeader] at hH
    split at hH
    · simp at hH
    · simp only [Except.ok.injEq, Prod.mk.injEq] at hH
      exact hH.2.symm
  rw [hHdr, hG]
  refine ⟨objSpreadList
    [("alg", .vStr cfg.algorithm),
     ("typ", if jsTypeof (payloadToText payload cfg.encoding) == "object"
        then JsValue.vStr "JWT" else .vUndefined),
     ("kid", cfg.kid)] gs, rfl, ?_⟩
  exact objGet_objSpreadList_mem _ _ _ _ hnd hv

/-- C9, witness: the theorem applied to a concrete signer whose extra
header claims `alg` = `none` while HS256 (with the `coreMark` stand-in)
signs. -/
theorem c9_header_alg_override_witness :
    signJwtSync coreMark (signerCfgOf optsAlgHeader true) (.vObj []) 0
      = .ok ("eyJhbGciOiJub25lIiwidHlwIjoiSldUIn0="  ++ "." ++ "eyJpYXQiOjB9" ++ "." ++
          base64UrlEncode (base64Encode (createSignature coreMark
            (signerCfgOf optsAlgHeader true).algorithm
            (signerCfgOf optsAlgHeader true).secret
            "eyJhbGciOiJub25lIiwidHlwIjoiSldUIn0=" "eyJpYXQiOjB9")))
    ∧ ∃ hf, (JsValue.vObj [("alg", JsValue.vStr "none"), ("typ", JsValue.vStr "JWT"),
        ("kid", JsValue.vUndefined)]) = .vObj hf ∧ objGet hf "alg" = some (.vStr "none") :=
  c9_header_alg_override coreMark (signerCfgOf optsAlgHeader true) (.vObj []) 0
    [("alg", .vStr "none")] (.vStr "none")
    "eyJhbGciOiJub25lIiwidHlwIjoiSldUIn0=" "eyJpYXQiOjB9"
    (.vObj [("alg", .vStr "none"), ("typ", .vStr "JWT"), ("kid", .vUndefined)])
    (.vObj [])
    rfl (by decide) (List.mem_singleton.mpr rfl) rfl rfl

/-- C10 (confirmed): `encodeHeader` raises the `InvalidType` TokenError
exactly when the payload's `typeof` is neither `string` nor `object`; and
because `null` has object type in JS, `sign(null)` passes that guard and
then fails inside `encodePayload` reading `iat` of `null` — with an
untagged engine `TypeError`, not a `TokenError` (its `errCode` is none). -/
theorem c10_invalid_type_guard :
    (∀ alg kid addH payload enc,
        errCode (encodeHeader alg kid addH payload enc) = some .invalidType ↔
          (jsTypeof payload ≠ "string" ∧ jsTypeof payload ≠ "object"))
    ∧ (createSigner optsStatic true).bind
        (fun cfg => signJwtSync coreNull cfg .vNull 0)
      = .error (.typeError "Cannot read properties of null (reading iat)")
    ∧ errCode ((createSigner optsStatic true).bind
        (fun cfg => signJwtSync coreNull cfg .vNull 0)) = none := by
  refine ⟨?_, rfl, rfl⟩
  intro alg kid addH payload enc
  cases payload <;> simp [encodeHeader, jsTypeof, errCode]

/-- C10, witness: the guard applied at a concrete non-string, non-object
payload (a number), which is rejected with `InvalidType`. -/
theorem c10_invalid_type_guard_witness :
    errCode (encodeHeader "HS256" .vUndefined .vUndefined (.vNum (.ofInt 1)) .vUndefined)
      = some .invalidType :=
  (c10_invalid_type_guard.1 "HS256" .vUndefined .vUndefined (.vNum (.ofInt 1))
    .vUndefined).mpr ⟨by decide, by decide⟩

end FastJwt
